import Mathlib

/-!
Shallow embedding of the two-service inventory demo: the inventory store
(src/inventory-service/main.py) and the natural-language orchestrator
(src/mcp-server/main.py).

The inventory store keeps a Python dict from item name to integer count;
it is embedded as an association list with first-occurrence lookup and
replace-first-or-append assignment, which coincides with dict semantics
because keys are unique.  HTTP errors raised via HTTPException are
embedded as an `Except` error value carrying status code and detail.

The orchestrator is a stateless pass-through: the external language-model
call is embedded as an `LLMOutcome` parameter describing what the network
interaction produced, and the embedding records how many HTTP requests
were made to the inventory store and whether the network call to the
language model happened, so that "no downstream call is made" claims are
expressible.
-/

/-- Status code and detail of a FastAPI HTTPException. -/
structure HTTPError where
  status_code : Nat
  detail : String
deriving Repr, DecidableEq

/-- The inventory store's state: a Python dict from item name to count,
embedded as an association list (keys unique, insertion order kept). -/
abbrev Inventory := List (String × Int)

/-- Initial inventory of src/inventory-service/main.py:
`inventory = {"tshirts": 20, "pants": 15}`. -/
def initInventory : Inventory := [("tshirts", 20), ("pants", 15)]

/-- Dict lookup `d[k]` / `d.get(k)`: the value at the first (only) pair
whose key is `k`. -/
def dictGet : Inventory → String → Option Int
  | [], _ => none
  | (k, v) :: rest, key => if k = key then some v else dictGet rest key

/-- Dict membership test `k in d`. -/
def dictContains : Inventory → String → Bool
  | [], _ => false
  | (k, _) :: rest, key => if k = key then true else dictContains rest key

/-- Dict assignment `d[k] = v`: replace the value at the first (only)
occurrence of `k`, or append the new pair if `k` is absent. -/
def dictSet : Inventory → String → Int → Inventory
  | [], key, v => [(key, v)]
  | (k, w) :: rest, key, v =>
    if k = key then (key, v) :: rest else (k, w) :: dictSet rest key v

/-- ASCII lowering of one character, as Python `str.lower()` acts on the
ASCII item names used here. -/
def lowerChar (c : Char) : Char :=
  if 65 ≤ c.toNat ∧ c.toNat ≤ 90 then Char.ofNat (c.toNat + 32) else c

/-- Python `s.lower()` (ASCII model: all strings in this system are ASCII). -/
def pyLower (s : String) : String := ⟨s.data.map lowerChar⟩

/-- GET /inventory (`get_inventory`): returns the current mapping; always
succeeds. -/
def get_inventory (inventory : Inventory) : Inventory := inventory

/-- POST /inventory (`update_inventory`): lowercases the item name, rejects
unknown items and updates that would drive the count negative with an
HTTP 400, and otherwise stores `count + change` and returns the full
updated mapping.  The state after a rejection is the unchanged input. -/
def update_inventory (inventory : Inventory) (item : String) (change : Int) :
    Except HTTPError Inventory :=
  let item_name := pyLower item
  let change_amount := change
  if dictContains inventory item_name = false then
    Except.error ⟨400, "Invalid item: '" ++ item ++ "'. Only 'tshirts' and 'pants' are supported."⟩
  else
    let current := (dictGet inventory item_name).getD 0
    let new_stock := current + change_amount
    if new_stock < 0 then
      Except.error ⟨400, "Cannot reduce '" ++ item_name ++ "' stock below zero. Current: " ++ toString current ++ ", Attempted change: " ++ toString change_amount⟩
    else
      Except.ok (dictSet inventory item_name new_stock)

/-- One client request against the inventory store: a GET /inventory or a
POST /inventory with an item and a change. -/
inductive Op where
  | read
  | update (item : String) (change : Int)

/-- State transition of the store under one request: a rejected update
raises before the mutation line, so the state is unchanged. -/
def applyOp (inv : Inventory) : Op → Inventory
  | Op.read => inv
  | Op.update item change =>
    match update_inventory inv item change with
    | Except.ok inv2 => inv2
    | Except.error _ => inv

/-- State of the store after a sequence of requests. -/
def runOps : Inventory → List Op → Inventory
  | inv, [] => inv
  | inv, op :: ops => runOps (applyOp inv op) ops

/-- Whether a store call returned 200 rather than raising. -/
def isOk {α : Type} (e : Except HTTPError α) : Bool :=
  match e with
  | Except.ok _ => true
  | Except.error _ => false

/-- Sum of the deltas of the accepted updates in `ops` (run from `inv`)
that target the item `key`; rejected updates and reads contribute 0. -/
def acceptedSum : Inventory → List Op → String → Int
  | _, [], _ => 0
  | inv, Op.read :: ops, key => acceptedSum inv ops key
  | inv, Op.update item change :: ops, key =>
    (if isOk (update_inventory inv item change) = true ∧ pyLower item = key then change else 0)
    + acceptedSum (applyOp inv (Op.update item change)) ops key

/-! ## The MCP (orchestrator) service, src/mcp-server/main.py -/

/-- Fixed base address of the inventory store used by the orchestrator. -/
def INVENTORY_SERVICE_BASE_URL : String := "http://localhost:8000"

/-- The dict parsed from the language model's JSON payload.
`hasOperation` embeds the Python test `"operation" in llm_parsed_data`;
the `Option` fields embed `.get(...)`, `none` standing for an absent key
or a JSON null value. -/
structure LLMData where
  hasOperation : Bool
  operation : Option String
  item : Option String
  change : Option Int
  reasoning : Option String

/-- Python `llm_parsed_data.get("reasoning", "No specific reasoning provided by LLM.")`. -/
def LLMData.reasoningD (d : LLMData) : String :=
  d.reasoning.getD "No specific reasoning provided by LLM."

/-- What the network interaction with the language model produced, had it
been attempted: connection failure, HTTP error status, a payload without
the expected candidates structure, candidate text that is not valid JSON,
or a successfully parsed dict. -/
inductive LLMOutcome where
  | reqError (msg : String)
  | httpError (code : Nat) (text : String)
  | badStructure (raw : String)
  | badJson (raw : String)
  | parsed (d : LLMData)

/-- The `call_gemini_llm` helper: fails with HTTP 500 before any network
activity when the API key is empty, otherwise performs the call and maps
each outcome to the parsed dict or the corresponding HTTPException.  The
second component records whether the network call was made. -/
def call_gemini_llm (apiKey : String) (outcome : LLMOutcome) :
    Except HTTPError LLMData × Bool :=
  if apiKey = "" then
    (Except.error ⟨500, "Gemini API key is not configured. Please set the GEMINI_API_KEY environment variable."⟩, false)
  else
    match outcome with
    | LLMOutcome.parsed d => (Except.ok d, true)
    | LLMOutcome.badJson raw =>
      (Except.error ⟨500, "Failed to parse JSON response from LLM. LLM returned malformed JSON. Raw text: " ++ raw⟩, true)
    | LLMOutcome.badStructure raw =>
      (Except.error ⟨500, "An unexpected error occurred during LLM call: ValueError: LLM response did not contain expected content structure. Raw result: " ++ raw⟩, true)
    | LLMOutcome.reqError msg =>
      (Except.error ⟨503, "Failed to connect to Gemini API: " ++ msg⟩, true)
    | LLMOutcome.httpError code text =>
      (Except.error ⟨code, "Gemini API returned an error: " ++ text⟩, true)

/-- Body of a successful /process_query response (the `error` field of the
response model is never populated by the source). -/
structure MCPResponse where
  message : String
  inventory_state : Option Inventory
  error : Option String

/-- Result of one /process_query request: the HTTP outcome, the inventory
store's state afterwards, how many HTTP requests reached the store, and
whether the network call to the language model was made. -/
structure ProcOut where
  result : Except HTTPError MCPResponse
  store : Inventory
  storeCalls : Nat
  llmCalled : Bool

/-- How the Python f-string renders `operation` in the unsupported-operation
detail (`None` for a null value). -/
def opDisplay : Option String → String
  | some s => s
  | none => "None"

/-- POST /process_query (`process_natural_language_query`): interprets the
query via `call_gemini_llm` (its failures propagate unchanged), rejects a
payload without an operation key (ValueError caught as HTTP 500), and
dispatches on the operation: GET reads the store and narrows the message
to a named item's count (missing item read as 0), POST requires item and
change (HTTP 400 otherwise, before any store call) and forwards the
update, relaying a store 400 with its status and detail; any other
operation is rejected with HTTP 400 before any store call.  `storeUp`
models connectivity to the store: when false an attempted store call
raises a connection error mapped to HTTP 503. -/
def process_natural_language_query (apiKey : String) (storeUp : Bool)
    (llm : LLMOutcome) (store : Inventory) : ProcOut :=
  match call_gemini_llm apiKey llm with
  | (Except.error e, called) => ⟨Except.error e, store, 0, called⟩
  | (Except.ok llm_parsed_data, called) =>
    if llm_parsed_data.hasOperation = false then
      ⟨Except.error ⟨500, "An unexpected error occurred: ValueError: LLM response is not a valid dictionary or missing 'operation' key."⟩, store, 0, called⟩
    else
      let operation := llm_parsed_data.operation
      let item := llm_parsed_data.item
      let change := llm_parsed_data.change
      let reasoning := llm_parsed_data.reasoningD
      if operation = some "GET" then
        if storeUp = false then
          ⟨Except.error ⟨503, "Failed to connect to Inventory Service at " ++ INVENTORY_SERVICE_BASE_URL⟩, store, 1, called⟩
        else
          let inventory_state := get_inventory store
          match item with
          | some it =>
            if it = "" then
              ⟨Except.ok ⟨"Successfully retrieved inventory. Reasoning: " ++ reasoning, some inventory_state, none⟩, store, 1, called⟩
            else
              let item_count := (dictGet inventory_state it).getD 0
              ⟨Except.ok ⟨"Successfully retrieved inventory for " ++ it ++ ": " ++ toString item_count ++ ". Reasoning: " ++ reasoning, some inventory_state, none⟩, store, 1, called⟩
          | none =>
            ⟨Except.ok ⟨"Successfully retrieved inventory. Reasoning: " ++ reasoning, some inventory_state, none⟩, store, 1, called⟩
      else if operation = some "POST" then
        match item, change with
        | some it, some ch =>
          if storeUp = false then
            ⟨Except.error ⟨503, "Failed to connect to Inventory Service at " ++ INVENTORY_SERVICE_BASE_URL⟩, store, 1, called⟩
          else
            match update_inventory store it ch with
            | Except.ok updated_inventory =>
              ⟨Except.ok ⟨"Successfully updated inventory for " ++ it ++ " by " ++ toString ch ++ ". Reasoning: " ++ reasoning, some updated_inventory, none⟩, updated_inventory, 1, called⟩
            | Except.error e =>
              ⟨Except.error ⟨e.status_code, "Inventory Service returned an error: " ++ e.detail ++ " (HTTP " ++ toString e.status_code ++ ")"⟩, store, 1, called⟩
        | _, _ =>
          ⟨Except.error ⟨400, "LLM failed to extract required 'item' or 'change' for POST operation. LLM Reasoning: " ++ reasoning⟩, store, 0, called⟩
      else
        ⟨Except.error ⟨400, "LLM returned an unsupported operation: '" ++ opDisplay operation ++ "'. LLM Reasoning: " ++ reasoning⟩, store, 0, called⟩

/-! ## Dictionary lemmas -/

theorem dictGet_dictSet_self (inv : Inventory) (k : String) (v : Int) :
    dictGet (dictSet inv k v) k = some v := by
  induction inv with
  | nil => simp [dictSet, dictGet]
  | cons p rest ih =>
    obtain ⟨k0, w⟩ := p
    by_cases h : k0 = k
    · simp [dictSet, dictGet, h]
    · simp [dictSet, dictGet, h, ih]

theorem dictGet_dictSet_other (inv : Inventory) (k : String) (v : Int) (k2 : String)
    (h : k2 ≠ k) : dictGet (dictSet inv k v) k2 = dictGet inv k2 := by
  induction inv with
  | nil => simp [dictSet, dictGet, Ne.symm h]
  | cons p rest ih =>
    obtain ⟨k0, w⟩ := p
    by_cases h0 : k0 = k
    · subst h0
      simp [dictSet, dictGet, Ne.symm h]
    · simp [dictSet, dictGet, h0, ih]

theorem dictSet_get_self (inv : Inventory) (k : String) (v : Int)
    (h : dictGet inv k = some v) : dictSet inv k v = inv := by
  induction inv with
  | nil => simp [dictGet] at h
  | cons p rest ih =>
    obtain ⟨k0, w⟩ := p
    by_cases h0 : k0 = k
    · subst h0
      simp [dictGet] at h
      simp [dictSet, h]
    · simp [dictGet, h0] at h
      simp [dictSet, h0, ih h]

theorem keys_dictSet (inv : Inventory) (k : String) (v : Int)
    (h : dictContains inv k = true) :
    (dictSet inv k v).map Prod.fst = inv.map Prod.fst := by
  induction inv with
  | nil => simp [dictContains] at h
  | cons p rest ih =>
    obtain ⟨k0, w⟩ := p
    by_cases h0 : k0 = k
    · subst h0
      simp [dictSet]
    · simp [dictContains, h0] at h
      simp [dictSet, h0, ih h]

theorem dictContains_iff_get (inv : Inventory) (k : String) :
    dictContains inv k = true ↔ ∃ v, dictGet inv k = some v := by
  induction inv with
  | nil => simp [dictContains, dictGet]
  | cons p rest ih =>
    obtain ⟨k0, w⟩ := p
    by_cases h0 : k0 = k
    · simp [dictContains, dictGet, h0]
    · simp [dictContains, dictGet, h0, ih]

theorem mem_keys_of_contains (inv : Inventory) (k : String)
    (h : dictContains inv k = true) : k ∈ inv.map Prod.fst := by
  induction inv with
  | nil => simp [dictContains] at h
  | cons p rest ih =>
    obtain ⟨k0, w⟩ := p
    by_cases h0 : k0 = k
    · simp [h0]
    · simp [dictContains, h0] at h
      simp [ih h]

theorem nonneg_dictSet (inv : Inventory) (k : String) (v : Int)
    (hinv : ∀ p ∈ inv, 0 ≤ p.2) (hv : 0 ≤ v) :
    ∀ p ∈ dictSet inv k v, 0 ≤ p.2 := by
  induction inv with
  | nil =>
    intro p hp
    simp [dictSet] at hp
    simp [hp, hv]
  | cons q rest ih =>
    obtain ⟨k0, w⟩ := q
    intro p hp
    by_cases h0 : k0 = k
    · simp [dictSet, h0] at hp
      rcases hp with hp | hp
      · simp [hp, hv]
      · exact hinv p (List.mem_cons_of_mem _ hp)
    · simp [dictSet, h0] at hp
      rcases hp with hp | hp
      · exact hinv p (by simp [hp])
      · exact ih (fun q hq => hinv q (List.mem_cons_of_mem _ hq)) p hp

/-! ## Lowercasing lemmas -/

theorem toNat_ofNat_valid (n : Nat) (h : n < 55296) : (Char.ofNat n).toNat = n := by
  have hv : Nat.isValidChar n := Or.inl h
  simp [Char.ofNat, hv, Char.ofNatAux, Char.toNat]
  rfl

theorem lowerChar_idem (c : Char) : lowerChar (lowerChar c) = lowerChar c := by
  unfold lowerChar
  by_cases h : 65 ≤ c.toNat ∧ c.toNat ≤ 90
  · rw [if_pos h]
    have hv : (Char.ofNat (c.toNat + 32)).toNat = c.toNat + 32 :=
      toNat_ofNat_valid _ (by omega)
    rw [if_neg (by omega)]
  · rw [if_neg h, if_neg h]

theorem pyLower_idem (s : String) : pyLower (pyLower s) = pyLower s := by
  unfold pyLower
  congr 1
  rw [List.map_map]
  exact List.map_congr_left (fun c _ => lowerChar_idem c)

/-! ## Characterizations of update_inventory -/

theorem update_invalid_eq (inv : Inventory) (item : String) (change : Int)
    (h : dictContains inv (pyLower item) = false) :
    update_inventory inv item change =
      Except.error ⟨400, "Invalid item: '" ++ item ++ "'. Only 'tshirts' and 'pants' are supported."⟩ := by
  unfold update_inventory
  rw [if_pos h]

theorem update_negative_eq (inv : Inventory) (item : String) (change : Int) (cur : Int)
    (hget : dictGet inv (pyLower item) = some cur) (hneg : cur + change < 0) :
    update_inventory inv item change =
      Except.error ⟨400, "Cannot reduce '" ++ pyLower item ++ "' stock below zero. Current: " ++ toString cur ++ ", Attempted change: " ++ toString change⟩ := by
  have hc : dictContains inv (pyLower item) = true :=
    (dictContains_iff_get inv (pyLower item)).mpr ⟨cur, hget⟩
  unfold update_inventory
  rw [if_neg (by simp [hc]), hget]
  simp only [Option.getD_some]
  rw [if_pos hneg]

theorem update_ok_eq (inv : Inventory) (item : String) (change : Int) (cur : Int)
    (hget : dictGet inv (pyLower item) = some cur) (hpos : 0 ≤ cur + change) :
    update_inventory inv item change =
      Except.ok (dictSet inv (pyLower item) (cur + change)) := by
  have hc : dictContains inv (pyLower item) = true :=
    (dictContains_iff_get inv (pyLower item)).mpr ⟨cur, hget⟩
  unfold update_inventory
  rw [if_neg (by simp [hc]), hget]
  simp only [Option.getD_some]
  rw [if_neg (by omega)]

theorem update_ok_inv (inv : Inventory) (item : String) (change : Int) (inv2 : Inventory)
    (h : update_inventory inv item change = Except.ok inv2) :
    ∃ cur, dictGet inv (pyLower item) = some cur ∧ 0 ≤ cur + change ∧
      inv2 = dictSet inv (pyLower item) (cur + change) := by
  by_cases hc : dictContains inv (pyLower item) = true
  · obtain ⟨cur, hget⟩ := (dictContains_iff_get inv (pyLower item)).mp hc
    by_cases hneg : cur + change < 0
    · rw [update_negative_eq inv item change cur hget hneg] at h
      exact absurd h (by simp)
    · refine ⟨cur, hget, by omega, ?_⟩
      rw [update_ok_eq inv item change cur hget (by omega)] at h
      exact (Except.ok.inj h).symm
  · rw [update_invalid_eq inv item change (by simpa using hc)] at h
    exact absurd h (by simp)

theorem applyOp_update_of_error (inv : Inventory) (item : String) (change : Int)
    (e : HTTPError) (h : update_inventory inv item change = Except.error e) :
    applyOp inv (Op.update item change) = inv := by
  simp [applyOp, h]

/-! ## State invariants over request sequences -/

theorem nonneg_applyOp (inv : Inventory) (op : Op)
    (h : ∀ p ∈ inv, 0 ≤ p.2) : ∀ p ∈ applyOp inv op, 0 ≤ p.2 := by
  cases op with
  | read => exact h
  | update item change =>
    cases he : update_inventory inv item change with
    | error e =>
      rw [applyOp_update_of_error inv item change e he]
      exact h
    | ok inv2 =>
      obtain ⟨cur, hget, hpos, heq⟩ := update_ok_inv inv item change inv2 he
      have : applyOp inv (Op.update item change) = inv2 := by simp [applyOp, he]
      rw [this, heq]
      exact nonneg_dictSet inv (pyLower item) (cur + change) h hpos

theorem nonneg_runOps (ops : List Op) :
    ∀ inv : Inventory, (∀ p ∈ inv, 0 ≤ p.2) → ∀ p ∈ runOps inv ops, 0 ≤ p.2 := by
  induction ops with
  | nil => intro inv h; exact h
  | cons op ops ih =>
    intro inv h
    exact ih (applyOp inv op) (nonneg_applyOp inv op h)

theorem keys_applyOp (inv : Inventory) (op : Op) :
    (applyOp inv op).map Prod.fst = inv.map Prod.fst := by
  cases op with
  | read => rfl
  | update item change =>
    cases he : update_inventory inv item change with
    | error e => rw [applyOp_update_of_error inv item change e he]
    | ok inv2 =>
      obtain ⟨cur, hget, hpos, heq⟩ := update_ok_inv inv item change inv2 he
      have happ : applyOp inv (Op.update item change) = inv2 := by simp [applyOp, he]
      have hc : dictContains inv (pyLower item) = true :=
        (dictContains_iff_get inv (pyLower item)).mpr ⟨cur, hget⟩
      rw [happ, heq, keys_dictSet inv (pyLower item) (cur + change) hc]

theorem keys_runOps (ops : List Op) :
    ∀ inv : Inventory, (runOps inv ops).map Prod.fst = inv.map Prod.fst := by
  induction ops with
  | nil => intro inv; rfl
  | cons op ops ih =>
    intro inv
    rw [runOps, ih (applyOp inv op), keys_applyOp inv op]

theorem runOps_get (ops : List Op) :
    ∀ (inv : Inventory) (k : String) (cur : Int), dictGet inv k = some cur →
      dictGet (runOps inv ops) k = some (cur + acceptedSum inv ops k) := by
  induction ops with
  | nil =>
    intro inv k cur h
    simpa [runOps, acceptedSum] using h
  | cons op ops ih =>
    intro inv k cur h
    cases op with
    | read =>
      rw [runOps, acceptedSum]
      exact ih inv k cur h
    | update item change =>
      cases he : update_inventory inv item change with
      | error e =>
        have happ := applyOp_update_of_error inv item change e he
        rw [runOps, happ, acceptedSum, happ, he]
        have hif : (if isOk (Except.error e : Except HTTPError Inventory) = true ∧ pyLower item = k then change else 0) = 0 := by
          simp [isOk]
        rw [hif]
        simpa using ih inv k cur h
      | ok inv2 =>
        obtain ⟨cur2, hget2, hpos2, heq2⟩ := update_ok_inv inv item change inv2 he
        have happ : applyOp inv (Op.update item change) = inv2 := by simp [applyOp, he]
        rw [runOps, happ, acceptedSum, happ, he]
        by_cases hk : pyLower item = k
        · subst hk
          have hcur : cur2 = cur := by
            rw [hget2] at h
            exact Option.some.inj h
          subst hcur
          have hget2' : dictGet inv2 (pyLower item) = some (cur2 + change) := by
            rw [heq2]
            exact dictGet_dictSet_self inv (pyLower item) (cur2 + change)
          have := ih inv2 (pyLower item) (cur2 + change) hget2'
          rw [this]
          have hif : (if isOk (Except.ok inv2 : Except HTTPError Inventory) = true ∧ pyLower item = pyLower item then change else 0) = change := by
            simp [isOk]
          rw [hif]
          congr 1
          omega
        · have hget2' : dictGet inv2 k = some cur := by
            rw [heq2, dictGet_dictSet_other inv (pyLower item) (cur2 + change) k (fun hh => hk hh.symm)]
            exact h
          have := ih inv2 k cur hget2'
          rw [this]
          have hif : (if isOk (Except.ok inv2 : Except HTTPError Inventory) = true ∧ pyLower item = k then change else 0) = 0 := by
            simp [isOk, hk]
          rw [hif]
          congr 1
          omega

theorem mem_of_dictGet (inv : Inventory) (k : String) (v : Int)
    (h : dictGet inv k = some v) : (k, v) ∈ inv := by
  induction inv with
  | nil => simp [dictGet] at h
  | cons p rest ih =>
    obtain ⟨k0, w⟩ := p
    by_cases h0 : k0 = k
    · subst h0
      simp [dictGet] at h
      simp [h]
    · simp [dictGet, h0] at h
      simp [ih h]

/-! ## Claims about the inventory store -/

/-- C1: for every sequence of Update calls applied from the initial state,
the stored count of every item in the inventory mapping stays at or above
zero at all times; rejected updates leave the state unchanged, so they
preserve this too. -/
theorem claim_inventory_counts_nonneg (ops : List Op) (p : String × Int)
    (hp : p ∈ runOps initInventory ops) : 0 ≤ p.2 :=
  nonneg_runOps ops initInventory (by decide) p hp

theorem claim_inventory_counts_nonneg_witness :
    (0 : Int) ≤ (("tshirts", (17 : Int)) : String × Int).2 :=
  claim_inventory_counts_nonneg [Op.update "tshirts" (-3)] ("tshirts", 17) (by decide)

/-- C2: when the current count of a stored item plus the delta is negative,
Update fails with HTTP 400 whose detail states the current count and the
attempted change, and the mapping after the call equals the mapping before. -/
theorem claim_update_negative_rejected (inv : Inventory) (item : String) (change cur : Int)
    (hget : dictGet inv (pyLower item) = some cur) (hneg : cur + change < 0) :
    update_inventory inv item change =
      Except.error ⟨400, "Cannot reduce '" ++ pyLower item ++ "' stock below zero. Current: " ++ toString cur ++ ", Attempted change: " ++ toString change⟩
    ∧ applyOp inv (Op.update item change) = inv := by
  have h := update_negative_eq inv item change cur hget hneg
  exact ⟨h, applyOp_update_of_error inv item change _ h⟩

theorem claim_update_negative_rejected_witness :
    update_inventory initInventory "pants" (-100) =
      Except.error ⟨400, "Cannot reduce 'pants' stock below zero. Current: 15, Attempted change: -100"⟩
    ∧ applyOp initInventory (Op.update "pants" (-100)) = initInventory :=
  claim_update_negative_rejected initInventory "pants" (-100) 15 (by decide) (by decide)

/-- C3: an identifier whose lowercased form is not a key of the mapping is
rejected with HTTP 400 naming the invalid item, leaving the mapping
unchanged; an identifier whose lowercased form is a key behaves exactly as
an update of that (lowercase) item. -/
theorem claim_update_invalid_item (inv : Inventory) (item : String) (change : Int) :
    (dictContains inv (pyLower item) = false →
      update_inventory inv item change =
        Except.error ⟨400, "Invalid item: '" ++ item ++ "'. Only 'tshirts' and 'pants' are supported."⟩
      ∧ applyOp inv (Op.update item change) = inv)
    ∧ (dictContains inv (pyLower item) = true →
      update_inventory inv item change = update_inventory inv (pyLower item) change) := by
  constructor
  · intro h
    have he := update_invalid_eq inv item change h
    exact ⟨he, applyOp_update_of_error inv item change _ he⟩
  · intro h
    simp only [update_inventory, pyLower_idem, h]
    rfl

theorem claim_update_invalid_item_witness :
    (update_inventory initInventory "shoes" 1 =
      Except.error ⟨400, "Invalid item: 'shoes'. Only 'tshirts' and 'pants' are supported."⟩
    ∧ applyOp initInventory (Op.update "shoes" 1) = initInventory)
    ∧ update_inventory initInventory "TShirts" (-3) = update_inventory initInventory "tshirts" (-3) :=
  ⟨(claim_update_invalid_item initInventory "shoes" 1).1 (by decide),
   (claim_update_invalid_item initInventory "TShirts" (-3)).2 (by decide)⟩

/-- C4: a valid update (item stored, count plus delta nonnegative) succeeds,
returns the full updated mapping, sets the item's count to old plus delta
and changes no other item; and after any sequence of requests from the
initial state, the stored count of each initial item is its initial count
plus the sum of the deltas of the accepted updates targeting it. -/
theorem claim_update_success_and_read :
    (∀ (inv : Inventory) (item : String) (change cur : Int),
      dictGet inv (pyLower item) = some cur → 0 ≤ cur + change →
        update_inventory inv item change = Except.ok (dictSet inv (pyLower item) (cur + change))
        ∧ dictGet (dictSet inv (pyLower item) (cur + change)) (pyLower item) = some (cur + change)
        ∧ ∀ k2, k2 ≠ pyLower item →
            dictGet (dictSet inv (pyLower item) (cur + change)) k2 = dictGet inv k2)
    ∧ (∀ (ops : List Op) (k : String) (cur : Int),
      dictGet initInventory k = some cur →
        dictGet (runOps initInventory ops) k = some (cur + acceptedSum initInventory ops k)) := by
  constructor
  · intro inv item change cur hget hpos
    exact ⟨update_ok_eq inv item change cur hget hpos,
      dictGet_dictSet_self inv (pyLower item) (cur + change),
      fun k2 hk2 => dictGet_dictSet_other inv (pyLower item) (cur + change) k2 hk2⟩
  · intro ops k cur hget
    exact runOps_get ops initInventory k cur hget

theorem claim_update_success_and_read_witness :
    (update_inventory initInventory "tshirts" (-3) = Except.ok [("tshirts", 17), ("pants", 15)]
      ∧ dictGet [("tshirts", 17), ("pants", 15)] "tshirts" = some 17
      ∧ dictGet [("tshirts", 17), ("pants", 15)] "pants" = dictGet initInventory "pants")
    ∧ dictGet (runOps initInventory [Op.update "tshirts" (-3), Op.update "pants" 5]) "pants" =
        some (15 + acceptedSum initInventory [Op.update "tshirts" (-3), Op.update "pants" 5] "pants") := by
  refine ⟨⟨?_, ?_, ?_⟩, ?_⟩
  · exact (claim_update_success_and_read.1 initInventory "tshirts" (-3) 20 (by decide) (by decide)).1
  · exact (claim_update_success_and_read.1 initInventory "tshirts" (-3) 20 (by decide) (by decide)).2.1
  · exact (claim_update_success_and_read.1 initInventory "tshirts" (-3) 20 (by decide) (by decide)).2.2 "pants" (by decide)
  · exact claim_update_success_and_read.2 [Op.update "tshirts" (-3), Op.update "pants" 5] "pants" 15 (by decide)

/-- C5: every sequence of Read and Update requests (accepted or rejected)
from the initial state leaves the key set of the mapping exactly the two
initial items, in order; no request adds or deletes an item. -/
theorem claim_item_set_fixed (ops : List Op) :
    (runOps initInventory ops).map Prod.fst = ["tshirts", "pants"] := by
  rw [keys_runOps ops initInventory]
  rfl

/-- C10: for a stored item and a nonnegative delta, Update never fails from
any reachable state: the nonnegativity invariant makes the negative-stock
branch unreachable, and a zero delta succeeds leaving the mapping equal. -/
theorem claim_nonneg_delta_always_accepted (ops : List Op) (item : String) (change : Int)
    (hitem : dictContains (runOps initInventory ops) (pyLower item) = true)
    (hchange : 0 ≤ change) :
    isOk (update_inventory (runOps initInventory ops) item change) = true
    ∧ (change = 0 → update_inventory (runOps initInventory ops) item change =
        Except.ok (runOps initInventory ops)) := by
  obtain ⟨cur, hget⟩ := (dictContains_iff_get (runOps initInventory ops) (pyLower item)).mp hitem
  have hcur : 0 ≤ cur :=
    nonneg_runOps ops initInventory (by decide) (pyLower item, cur) (mem_of_dictGet _ _ _ hget)
  have hok := update_ok_eq (runOps initInventory ops) item change cur hget (by omega)
  constructor
  · rw [hok]
    rfl
  · intro h0
    subst h0
    rw [hok]
    congr 1
    have hc0 : cur + 0 = cur := by omega
    rw [hc0]
    exact dictSet_get_self (runOps initInventory ops) (pyLower item) cur hget

theorem claim_nonneg_delta_always_accepted_witness :
    isOk (update_inventory initInventory "tshirts" 0) = true
    ∧ update_inventory initInventory "tshirts" 0 = Except.ok initInventory :=
  ⟨(claim_nonneg_delta_always_accepted [] "tshirts" 0 (by decide) (by decide)).1,
   (claim_nonneg_delta_always_accepted [] "tshirts" 0 (by decide) (by decide)).2 rfl⟩

/-! ## Claims about the orchestrator -/

/-- C6: a write (POST) intent with the item or the delta absent makes
Process fail with HTTP 400 whose detail includes the model's rationale,
and no HTTP request reaches the inventory store, whose state is untouched. -/
theorem claim_post_incomplete_intent (apiKey : String) (storeUp : Bool) (d : LLMData)
    (store : Inventory) (hkey : apiKey ≠ "") (hop : d.hasOperation = true)
    (hpost : d.operation = some "POST") (hinc : d.item = none ∨ d.change = none) :
    process_natural_language_query apiKey storeUp (LLMOutcome.parsed d) store =
      ⟨Except.error ⟨400, "LLM failed to extract required 'item' or 'change' for POST operation. LLM Reasoning: " ++ d.reasoningD⟩, store, 0, true⟩ := by
  rcases hinc with h | h
  · simp [process_natural_language_query, call_gemini_llm, hkey, hop, hpost, h]
  · cases hi : d.item with
    | none => simp [process_natural_language_query, call_gemini_llm, hkey, hop, hpost, hi]
    | some it => simp [process_natural_language_query, call_gemini_llm, hkey, hop, hpost, h, hi]

theorem claim_post_incomplete_intent_witness :
    process_natural_language_query "k" true
      (LLMOutcome.parsed ⟨true, some "POST", none, none, some "r"⟩) initInventory =
      ⟨Except.error ⟨400, "LLM failed to extract required 'item' or 'change' for POST operation. LLM Reasoning: r"⟩, initInventory, 0, true⟩ := by
  exact claim_post_incomplete_intent "k" true ⟨true, some "POST", none, none, some "r"⟩
    initInventory (by decide) rfl rfl (Or.inl rfl)

/-- C7: a read (GET) intent naming an item, with the store reachable,
returns success carrying the full mapping, and the message cites that
item's count computed from the mapping, a missing item counting as 0
rather than failing. -/
theorem claim_get_named_item (apiKey : String) (d : LLMData) (store : Inventory) (it : String)
    (hkey : apiKey ≠ "") (hop : d.hasOperation = true) (hget : d.operation = some "GET")
    (hitem : d.item = some it) (hne : it ≠ "") :
    process_natural_language_query apiKey true (LLMOutcome.parsed d) store =
      ⟨Except.ok ⟨"Successfully retrieved inventory for " ++ it ++ ": " ++ toString ((dictGet store it).getD 0) ++ ". Reasoning: " ++ d.reasoningD, some store, none⟩, store, 1, true⟩
    ∧ (dictGet store it = none → (dictGet store it).getD 0 = 0) := by
  constructor
  · simp [process_natural_language_query, call_gemini_llm, hkey, hop, hget, hitem, hne,
      get_inventory]
  · intro h
    rw [h]
    rfl

theorem claim_get_named_item_witness :
    process_natural_language_query "k" true
      (LLMOutcome.parsed ⟨true, some "GET", some "shoes", none, some "r"⟩) initInventory =
      ⟨Except.ok ⟨"Successfully retrieved inventory for shoes: 0. Reasoning: r", some initInventory, none⟩, initInventory, 1, true⟩
    ∧ (dictGet initInventory "shoes").getD 0 = 0 := by
  have h := claim_get_named_item "k" ⟨true, some "GET", some "shoes", none, some "r"⟩
    initInventory "shoes" (by decide) rfl rfl rfl (by decide)
  exact ⟨h.1, h.2 (by decide)⟩

/-- C8: an intent whose operation is neither GET nor POST makes Process
fail with HTTP 400 whose detail includes the model's stated rationale, and
no HTTP request reaches the inventory store. -/
theorem claim_unsupported_operation (apiKey : String) (storeUp : Bool) (d : LLMData)
    (store : Inventory) (hkey : apiKey ≠ "") (hop : d.hasOperation = true)
    (hng : d.operation ≠ some "GET") (hnp : d.operation ≠ some "POST") :
    process_natural_language_query apiKey storeUp (LLMOutcome.parsed d) store =
      ⟨Except.error ⟨400, "LLM returned an unsupported operation: '" ++ opDisplay d.operation ++ "'. LLM Reasoning: " ++ d.reasoningD⟩, store, 0, true⟩ := by
  simp [process_natural_language_query, call_gemini_llm, hkey, hop, hng, hnp]

theorem claim_unsupported_operation_witness :
    process_natural_language_query "k" true
      (LLMOutcome.parsed ⟨true, some "DELETE", none, none, some "r"⟩) initInventory =
      ⟨Except.error ⟨400, "LLM returned an unsupported operation: 'DELETE'. LLM Reasoning: r"⟩, initInventory, 0, true⟩ := by
  exact claim_unsupported_operation "k" true ⟨true, some "DELETE", none, none, some "r"⟩
    initInventory (by decide) rfl (by decide) (by decide)

/-- C9: with the language-model credential empty, Process fails with HTTP
500 whose detail names the missing credential, before any network call:
the language model is never contacted and no request reaches the store. -/
theorem claim_missing_credential (storeUp : Bool) (llm : LLMOutcome) (store : Inventory) :
    process_natural_language_query "" storeUp llm store =
      ⟨Except.error ⟨500, "Gemini API key is not configured. Please set the GEMINI_API_KEY environment variable."⟩, store, 0, false⟩ := by
  simp [process_natural_language_query, call_gemini_llm]
